import Mathlib

/-!
Verification of the CC1800 USB boot tool (src/usbtool/main.c) against its
natural-language specification.

The transport layer (libusb) is modeled as a pure oracle: a device behavior
is a function from the history of requests issued so far to a response
(a return value and, for IN transfers, the bytes delivered into the buffer of the caller).  Every embedded C function threads the trace of issued requests
explicitly, so temporal properties (what was sent, in which order) are
statements about that trace.  Machine integers: C `unsigned long` values are
Nat with explicit masks where the code masks; C `int` return values are Int
(negative = error, as in libusb).  Timeouts and stdout/stderr text are not
modeled; the count of "WARNING: data mismatch" lines printed by the
interpreter is modeled as an explicit counter.
-/

namespace CC1800

/-- Vendor request codes (main.c lines 51-55). -/
def CC1800_REQ_GET_CPU_INFO : Nat := 0x00

/-- Vendor request code SET_ADDRESS (main.c line 52). -/
def CC1800_REQ_SET_ADDRESS : Nat := 0x01

/-- Vendor request code SET_LENGTH (main.c line 53). -/
def CC1800_REQ_SET_LENGTH : Nat := 0x02

/-- Vendor request code GET_STATUS (main.c line 54). -/
def CC1800_REQ_GET_STATUS : Nat := 0x03

/-- Vendor request code EXECUTE (main.c line 55). -/
def CC1800_REQ_EXECUTE : Nat := 0x04

/-- A USB request issued by the client to the device.  `controlIn`/`controlOut`
are vendor control transfers (device-to-host resp. host-to-device) carrying the
request code and the 16-bit wValue/wIndex metadata fields; `bulkWrite`/`bulkRead`
are bulk transfers on an endpoint.  The fixed 5000 ms timeout is not modeled. -/
inductive USBReq where
  | controlIn (code : Nat) (value : Nat) (index : Nat) (len : Nat)
  | controlOut (code : Nat) (value : Nat) (index : Nat)
  | bulkWrite (ep : Nat) (bytes : List Nat)
  | bulkRead (ep : Nat) (len : Nat)
deriving DecidableEq

/-- Response of the transport to one request: the `int` return value of the
libusb call (bytes transferred, or negative error), and for IN transfers the
bytes found in the buffer of the caller afterwards. -/
structure TResp where
  ret : Int
  data : List Nat
deriving DecidableEq

/-- A device behavior: the response may depend on the whole history of
requests issued so far (the trace), which models device-side state such as the
retained address/length registers. -/
abbrev Dev := List USBReq → USBReq → TResp

/-- The request emitted by cc1800_req_get_cpu_info (main.c line 68):
IN vendor control transfer, code GET_CPU_INFO, wValue 0, wIndex 0, 8 data bytes. -/
def cpuInfoReq : USBReq := USBReq.controlIn CC1800_REQ_GET_CPU_INFO 0 0 8

/-- The request emitted by cc1800_req_set_address (main.c line 85): the 32-bit
address split as wValue = (addr >> 16) & 0xFFFF, wIndex = (addr >> 0) & 0xFFFF. -/
def setAddressReq (addr : Nat) : USBReq :=
  USBReq.controlOut CC1800_REQ_SET_ADDRESS ((addr >>> 16) &&& 0xFFFF) ((addr >>> 0) &&& 0xFFFF)

/-- The request emitted by cc1800_req_set_length (main.c line 102).  The C code
first does `if (wr) len |= 0x80000000; else len &= ~0x80000000;`.  On LP64,
`~0x80000000` is the `unsigned int` 0x7FFFFFFF promoted to `unsigned long`, so
the else branch clears bit 31 and all higher bits; the modeling below is exact
for that platform. -/
def setLengthReq (len : Nat) (wr : Bool) : USBReq :=
  let len := if wr then len ||| 0x80000000 else len &&& 0x7FFFFFFF
  USBReq.controlOut CC1800_REQ_SET_LENGTH ((len >>> 16) &&& 0xFFFF) ((len >>> 0) &&& 0xFFFF)

/-- The request emitted by cc1800_req_execute (main.c line 142). -/
def executeReq : USBReq := USBReq.controlOut CC1800_REQ_EXECUTE 0 0

/-- The request emitted by cc1800_req_get_status (main.c line 125). -/
def getStatusReq : USBReq := USBReq.controlIn CC1800_REQ_GET_STATUS 0 0 1

/-- cc1800_req_get_cpu_info (main.c line 68): returns the transfer result,
the bytes placed in the 8-byte buffer of the caller, and the extended trace. -/
def cc1800_req_get_cpu_info (dev : Dev) (tr : List USBReq) : Int × List Nat × List USBReq :=
  ((dev tr cpuInfoReq).ret, (dev tr cpuInfoReq).data, tr ++ [cpuInfoReq])

/-- cc1800_req_set_address (main.c line 85). -/
def cc1800_req_set_address (dev : Dev) (tr : List USBReq) (addr : Nat) : Int × List USBReq :=
  ((dev tr (setAddressReq addr)).ret, tr ++ [setAddressReq addr])

/-- cc1800_req_set_length (main.c line 102). -/
def cc1800_req_set_length (dev : Dev) (tr : List USBReq) (len : Nat) (wr : Bool) :
    Int × List USBReq :=
  ((dev tr (setLengthReq len wr)).ret, tr ++ [setLengthReq len wr])

/-- cc1800_req_execute (main.c line 142). -/
def cc1800_req_execute (dev : Dev) (tr : List USBReq) : Int × List USBReq :=
  ((dev tr executeReq).ret, tr ++ [executeReq])

/-- Model of usb_bulk_write: sends the given bytes to an endpoint, returns the
libusb result and the extended trace. -/
def usb_bulk_write (dev : Dev) (tr : List USBReq) (ep : Nat) (bytes : List Nat) :
    Int × List USBReq :=
  ((dev tr (USBReq.bulkWrite ep bytes)).ret, tr ++ [USBReq.bulkWrite ep bytes])

/-- Model of usb_bulk_read: reads up to `len` bytes from an endpoint; the
`data` component is the content of the buffer of the caller after the call. -/
def usb_bulk_read (dev : Dev) (tr : List USBReq) (ep : Nat) (len : Nat) :
    Int × List Nat × List USBReq :=
  ((dev tr (USBReq.bulkRead ep len)).ret, (dev tr (USBReq.bulkRead ep len)).data,
    tr ++ [USBReq.bulkRead ep len])

/-- cc1800_upload (main.c line 163): set address, set length (write direction),
then bulk-write `length` bytes of `data` to endpoint 1, returning the raw bulk
result.  A negative result from either setup request is returned immediately. -/
def cc1800_upload (dev : Dev) (tr : List USBReq) (data : List Nat) (length : Nat)
    (address : Nat) : Int × List USBReq :=
  let ra := cc1800_req_set_address dev tr address
  if ra.1 < 0 then ra else
  let rl := cc1800_req_set_length dev ra.2 length true
  if rl.1 < 0 then rl else
  usb_bulk_write dev rl.2 1 (data.take length)

/-- cc1800_download (main.c line 174): set address, set length (read direction),
then bulk-read `length` bytes from endpoint 1.  On an early setup failure the
buffer of the caller is untouched; the model returns [] there (no caller reads it). -/
def cc1800_download (dev : Dev) (tr : List USBReq) (length : Nat) (address : Nat) :
    Int × List Nat × List USBReq :=
  let ra := cc1800_req_set_address dev tr address
  if ra.1 < 0 then (ra.1, [], ra.2) else
  let rl := cc1800_req_set_length dev ra.2 length false
  if rl.1 < 0 then (rl.1, [], rl.2) else
  usb_bulk_read dev rl.2 1 length

/-- Models C memcmp over the first n bytes of two buffers: 0 iff the bytes are
equal, otherwise the difference of the first differing pair.  Callers in this
program always pass n no larger than both buffer lengths; a buffer exhausted
early is treated as equal-so-far. -/
def memcmp : List Nat → List Nat → Nat → Int
  | _, _, 0 => 0
  | [], _, _ + 1 => 0
  | _, [], _ + 1 => 0
  | a :: as, b :: bs, n + 1 => if a = b then memcmp as bs n else (a : Int) - (b : Int)

/-- The errno value EIO; the C code returns - EIO. -/
def EIO : Int := 5

/-- The errno value ENOMEM; cc1800_execute would return -ENOMEM on a failed
alloca (which on the stack cannot actually fail). -/
def ENOMEM : Int := 12

/-- cc1800_execute (main.c line 185): upload, check for error or short
transfer, download the same range, same checks, byte-compare, and only then
issue the EXECUTE request.  The alloca scratch buffer is modeled as always
allocated (stack alloca does not return NULL). -/
def cc1800_execute (dev : Dev) (tr : List USBReq) (data : List Nat) (length : Nat)
    (address : Nat) : Int × List USBReq :=
  let up := cc1800_upload dev tr data length address
  if up.1 < 0 then up else
  if up.1 < (length : Int) then (- EIO, up.2) else
  let dn := cc1800_download dev up.2 length address
  if dn.1 < 0 then (dn.1, dn.2.2) else
  if dn.1 < (length : Int) then (- EIO, dn.2.2) else
  if memcmp data dn.2.1 length ≠ 0 then (- EIO, dn.2.2) else
  cc1800_req_execute dev dn.2.2

/-! The command interpreter and its external collaborators (argument parsing
via C sscanf, file loading/saving). -/

/-- Character of a C string at an index: past the end this is the NUL
terminator (and beyond, still reads as NUL for the accesses this program
makes, which stop at index 1 of a valid C string). -/
def strAt (s : String) (i : Nat) : Char := s.data.getD i (Char.ofNat 0)

/-- Numeric value of a hexadecimal digit character, if it is one. -/
def hexDigitVal (c : Char) : Option Nat :=
  if c.isDigit then some (c.toNat - 48)
  else if 'A' ≤ c ∧ c ≤ 'F' then some (c.toNat - 55)
  else if 'a' ≤ c ∧ c ≤ 'f' then some (c.toNat - 87)
  else none

/-- Value of the maximal leading run of hexadecimal digits (accumulator form). -/
def scanHexDigits : List Char → Nat → Nat
  | c :: cs, acc =>
    match hexDigitVal c with
    | some d => scanHexDigits cs (acc * 16 + d)
    | none => acc
  | [], acc => acc

/-- Value of the maximal leading run of decimal digits (accumulator form). -/
def scanDecDigits : List Char → Nat → Nat
  | c :: cs, acc => if c.isDigit then scanDecDigits cs (acc * 10 + (c.toNat - 48)) else acc
  | [], acc => acc

/-- Models the C library call sscanf(str, "%lx", &x) on the argv tokens this
program passes: returns (count, value) with count 1 and the parsed value when
the input starts with a hex digit, 0 (matching failure, value unset — modeled
as 0) when it starts with anything else, and -1 (EOF) on an empty string.
Leading whitespace/sign handling of scanf is not exercised by argv tokens and
is omitted; the value wraps as a 64-bit unsigned long. -/
def sscanf_lx (s : String) : Int × Nat :=
  match s.data with
  | [] => (-1, 0)
  | c :: _ => if (hexDigitVal c).isSome then (1, scanHexDigits s.data 0 % 2 ^ 64) else (0, 0)

/-- Models sscanf(str, "%lu", &x), same conventions as sscanf_lx. -/
def sscanf_lu (s : String) : Int × Nat :=
  match s.data with
  | [] => (-1, 0)
  | c :: _ => if c.isDigit then (1, scanDecDigits s.data 0 % 2 ^ 64) else (0, 0)

/-- scan_ulong (main.c line 204): returns (status, value), status 0 = success,
-1 = "bad value" error.  Faithful to the source, including the inverted
`!sscanf` test in the decimal branch (the C code returns success exactly when
sscanf reports a matching failure, leaving *addr unset — modeled as 0) and the
hex branch accepting an EOF (-1) sscanf result as success. -/
def scan_ulong (s : String) : Int × Nat :=
  if strAt s 0 = '0' ∧ (strAt s 1).toUpper = 'X' then
    let r := sscanf_lx (String.mk (s.data.drop 2))
    if r.1 ≠ 0 then (0, r.2) else (-1, 0)
  else
    let r := sscanf_lu s
    if r.1 = 0 then (0, 0) else (-1, 0)

/-- The file system as seen by load_file/save_file: `load` returns the bytes
of a file (none collapses the open/size/malloc/read failure paths of main.c
lines 224-253), `save` reports whether creating and writing succeeded. -/
structure FS where
  load : String → Option (List Nat)
  save : String → List Nat → Bool

/-- load_file (main.c line 220): 0 and the contents on success, -1 on failure. -/
def load_file (fs : FS) (file : String) : Int × List Nat :=
  match fs.load file with
  | some d => (0, d)
  | none => (-1, [])

/-- save_file (main.c line 260): 0 on success, -1 on failure. -/
def save_file (fs : FS) (file : String) (data : List Nat) : Int :=
  if fs.save file data then 0 else -1

/-- Outcome of one command body inside the interpreter loop: `Sum.inl`
aborts the whole sequence with a final (result, trace, warnings) triple,
`Sum.inr` means the command completed and the loop continues with the given
(trace, warnings) state. -/
abbrev CmdOut := (Int × List USBReq × Nat) ⊕ (List USBReq × Nat)

/-- The trace component of a command outcome. -/
def outTrace : CmdOut → List USBReq
  | Sum.inl r => r.2.1
  | Sum.inr s => s.1

/-- Body of the write command (main.c lines 306-346), entered with the trace
`tr2` as it stands after the probe of this entry: scan the address, load the file,
upload, download the same range for verification, and compare; a compare
mismatch only increments the warning count (the C code prints
"WARNING: data mismatch") and the command still completes.  The two malloc
calls are modeled as always succeeding. -/
def write_cmd (dev : Dev) (fs : FS) (tr2 : List USBReq) (w : Nat) (a f : String) : CmdOut :=
  let sa := scan_ulong a
  if sa.1 < 0 then Sum.inl (sa.1, tr2, w)
  else
    let lf := load_file fs f
    if lf.1 < 0 then Sum.inl (lf.1, tr2, w)
    else
      let up := cc1800_upload dev tr2 lf.2 lf.2.length sa.2
      if up.1 < 0 then Sum.inl (up.1, up.2, w)
      else
        let dn := cc1800_download dev up.2 lf.2.length sa.2
        if dn.1 < 0 then Sum.inl (dn.1, dn.2.2, w)
        else Sum.inr (dn.2.2, if memcmp lf.2 dn.2.1 lf.2.length ≠ 0 then w + 1 else w)

/-- Body of the read command (main.c lines 352-381): scan address and length,
download, save to the named file. -/
def read_cmd (dev : Dev) (fs : FS) (tr2 : List USBReq) (w : Nat) (a lng f : String) :
    CmdOut :=
  let sa := scan_ulong a
  if sa.1 < 0 then Sum.inl (sa.1, tr2, w)
  else
    let sl := scan_ulong lng
    if sl.1 < 0 then Sum.inl (sl.1, tr2, w)
    else
      let dn := cc1800_download dev tr2 sl.2 sa.2
      if dn.1 < 0 then Sum.inl (dn.1, dn.2.2, w)
      else
        let sv := save_file fs f (dn.2.1.take sl.2)
        if sv < 0 then Sum.inl (sv, dn.2.2, w)
        else Sum.inr (dn.2.2, w)

/-- Body of the exec command (main.c lines 387-395): issue EXECUTE,
unconditionally and with no client-side address bookkeeping. -/
def exec_cmd (dev : Dev) (tr2 : List USBReq) (w : Nat) : CmdOut :=
  let ex := cc1800_req_execute dev tr2
  if ex.1 < 0 then Sum.inl (ex.1, ex.2, w) else Sum.inr (ex.2, w)

/-- cc1800_fiddle (main.c line 283), the command interpreter, modeled as a
recursion over the remaining argv tokens.  State threaded through: the trace
of issued USB requests, the `cpu` already-printed flag (behaviorally inert
since stdout is not modeled; the C code sets it on the first successful probe)
and the count of "WARNING: data mismatch" lines printed.  Each iteration
issues the getCpuInfo liveness probe first and fails the whole run on a
negative probe result; then it dispatches on the command name, aborting with
-1 on a name that is not write/read/exec or on missing arguments. -/
def cc1800_fiddle (dev : Dev) (fs : FS) :
    List USBReq → Bool → Nat → List String → Int × List USBReq × Nat
  | tr, _cpu, w, [] => (0, tr, w)
  | tr, _cpu, w, cmd :: rest =>
    let pr := cc1800_req_get_cpu_info dev tr
    if pr.1 < 0 then (pr.1, pr.2.2, w)
    else
      let tr2 := pr.2.2
      if cmd = "write" then
        match rest with
        | a :: f :: rest2 =>
          match write_cmd dev fs tr2 w a f with
          | Sum.inl r => r
          | Sum.inr s => cc1800_fiddle dev fs s.1 true s.2 rest2
        | _ => (-1, tr2, w)
      else if cmd = "read" then
        match rest with
        | a :: lng :: f :: rest3 =>
          match read_cmd dev fs tr2 w a lng f with
          | Sum.inl r => r
          | Sum.inr s => cc1800_fiddle dev fs s.1 true s.2 rest3
        | _ => (-1, tr2, w)
      else if cmd = "exec" then
        match exec_cmd dev tr2 w with
        | Sum.inl r => r
        | Sum.inr s => cc1800_fiddle dev fs s.1 true s.2 rest
      else (-1, tr2, w)

/-- Well-formedness of an argv tail as the grammar of the interpreter expects it:
each command is write/read/exec with enough arguments, and every numeric
argument is accepted by scan_ulong.  This captures the "every parse succeeds"
premise of the exit-status claim. -/
def argsOk : List String → Bool
  | [] => true
  | "write" :: a :: _f :: rest2 => decide ((scan_ulong a).1 = 0) && argsOk rest2
  | "read" :: a :: lng :: _f :: rest3 =>
      decide ((scan_ulong a).1 = 0) && decide ((scan_ulong lng).1 = 0) && argsOk rest3
  | "exec" :: rest => argsOk rest
  | _ => false

/-- main (main.c line 416): args is argv[1..]; `found`/`opened` model device
discovery and usb_open, `cfgRes`/`claimRes` the results of
usb_set_configuration and usb_claim_interface.  Returns the process exit
status value (what the C main returns). -/
def main (found opened : Bool) (cfgRes claimRes : Int) (dev : Dev) (fs : FS)
    (args : List String) : Int :=
  if args = [] then 1
  else if !found then 1
  else if !opened then 1
  else if cfgRes < 0 then cfgRes
  else if claimRes < 0 then claimRes
  else (cc1800_fiddle dev fs [] false 0 args).1

/-! Concrete device behaviors and file systems used to witness the theorems
on concrete inputs. -/

/-- A device that answers every transfer in full; IN transfers deliver zero
bytes, so a verification readback of nonzero data mismatches. -/
def devFull : Dev := fun _ req =>
  match req with
  | USBReq.controlIn _ _ _ len => ⟨(len : Int), List.replicate len 0⟩
  | USBReq.controlOut _ _ _ => ⟨0, []⟩
  | USBReq.bulkWrite _ bytes => ⟨(bytes.length : Int), []⟩
  | USBReq.bulkRead _ len => ⟨(len : Int), List.replicate len 0⟩

/-- A device whose bulk transfers move two bytes fewer than requested. -/
def devShort : Dev := fun _ req =>
  match req with
  | USBReq.controlIn _ _ _ len => ⟨(len : Int), List.replicate len 0⟩
  | USBReq.controlOut _ _ _ => ⟨0, []⟩
  | USBReq.bulkWrite _ bytes => ⟨(bytes.length : Int) - 2, []⟩
  | USBReq.bulkRead _ len => ⟨(len : Int) - 2, List.replicate len 9⟩

/-- A device that answers nothing: every request fails with -ETIMEDOUT. -/
def devDead : Dev := fun _ _ => ⟨-110, []⟩

/-- A file system where every file holds the bytes [1, 2, 3] and saving works. -/
def fsSample : FS := ⟨fun _ => some [1, 2, 3], fun _ _ => true⟩

/-- A file system with no files at all. -/
def fsNone : FS := ⟨fun _ => none, fun _ _ => false⟩

end CC1800

namespace CC1800

/-! Arithmetic helpers for the 16-bit split encodings. -/

theorem and_mask16 (x : Nat) : x &&& 0xFFFF = x % 65536 := by
  have h : (0xFFFF : Nat) = 2 ^ 16 - 1 := by norm_num
  rw [h, Nat.and_pow_two_sub_one_eq_mod]

theorem and_mask31 (x : Nat) : x &&& 0x7FFFFFFF = x % 2147483648 := by
  have h : (0x7FFFFFFF : Nat) = 2 ^ 31 - 1 := by norm_num
  rw [h, Nat.and_pow_two_sub_one_eq_mod]

theorem shr16 (x : Nat) : x >>> 16 = x / 65536 := by
  rw [Nat.shiftRight_eq_div_pow]

theorem shr31 (x : Nat) : x >>> 31 = x / 2147483648 := by
  rw [Nat.shiftRight_eq_div_pow]

theorem shr0 (x : Nat) : x >>> 0 = x := rfl

/-- Setting a single high bit by OR: for m below 2^(n+1), OR-ing in 2^n leaves
the low n bits and forces bit n. -/
theorem or_high_bit (m n : Nat) (h : m < 2 ^ (n + 1)) :
    m ||| 2 ^ n = m % 2 ^ n + 2 ^ n := by
  apply Nat.eq_of_testBit_eq
  intro i
  rw [Nat.testBit_or]
  rcases Nat.lt_trichotomy i n with hi | hi | hi
  · have h1 : Nat.testBit (2 ^ n) i = false := Nat.testBit_two_pow_of_ne (Nat.ne_of_gt hi)
    have h2 : Nat.testBit (m % 2 ^ n + 2 ^ n) i = Nat.testBit (m % 2 ^ n) i := by
      rw [Nat.add_comm]
      exact Nat.testBit_two_pow_add_gt hi _
    rw [h1, h2]
    simp [Nat.testBit_mod_two_pow, hi]
  · subst hi
    have h1 : Nat.testBit (2 ^ i) i = true := Nat.testBit_two_pow_self
    have h2 : Nat.testBit (m % 2 ^ i + 2 ^ i) i = !(Nat.testBit (m % 2 ^ i) i) := by
      rw [Nat.add_comm]
      exact Nat.testBit_two_pow_add_eq _ _
    have h3 : Nat.testBit (m % 2 ^ i) i = false := by
      simp [Nat.testBit_mod_two_pow]
    rw [h1, h2, h3]
    simp
  · have hpow : 2 ^ (n + 1) ≤ 2 ^ i := Nat.pow_le_pow_right (by norm_num) hi
    have hmod : m % 2 ^ n < 2 ^ n := Nat.mod_lt _ (Nat.pos_pow_of_pos n (by norm_num))
    have h1 : Nat.testBit m i = false := by
      exact Nat.testBit_lt_two_pow (lt_of_lt_of_le h hpow)
    have h2 : Nat.testBit (2 ^ n) i = false := Nat.testBit_two_pow_of_ne (Nat.ne_of_lt hi)
    have h3 : Nat.testBit (m % 2 ^ n + 2 ^ n) i = false := by
      apply Nat.testBit_lt_two_pow
      have := Nat.pow_succ 2 n
      omega
    rw [h1, h2, h3]
    rfl

/-- Forcing bit 31 on a value below 2^32: OR with 0x80000000 in numeral form. -/
theorem or_bit31 (len : Nat) (h : len < 2 ^ 32) :
    len ||| 0x80000000 = len % 2147483648 + 2147483648 := by
  have h31 : (0x80000000 : Nat) = 2 ^ 31 := by norm_num
  have hlt : len < 2 ^ (31 + 1) := by
    norm_num at h ⊢
    omega
  rw [h31, or_high_bit len 31 hlt]

/-- C5: for every 32-bit length and direction flag, cc1800_req_set_length
transmits the length with bit 31 forced to the direction flag, split into two
16-bit metadata fields; recombining the fields recovers exactly the forced
value, so the decoded direction flag (bit 31) equals `wr` and the decoded
magnitude equals `len &&& 0x7FFFFFFF`, whatever bit 31 of the input was. -/
theorem setLength_encoding (dev : Dev) (tr : List USBReq) (len : Nat) (wr : Bool)
    (h : len < 2 ^ 32) :
    ∃ hi lo,
      (cc1800_req_set_length dev tr len wr).2 =
        tr ++ [USBReq.controlOut CC1800_REQ_SET_LENGTH hi lo] ∧
      hi < 65536 ∧ lo < 65536 ∧
      (wr = true → hi * 65536 + lo = (len ||| 0x80000000) ∧ (hi * 65536 + lo) >>> 31 = 1) ∧
      (wr = false → hi * 65536 + lo = (len &&& 0x7FFFFFFF) ∧ (hi * 65536 + lo) >>> 31 = 0) ∧
      (hi * 65536 + lo) &&& 0x7FFFFFFF = len &&& 0x7FFFFFFF := by
  have hn : len < 4294967296 := by norm_num at h; exact h
  cases wr
  · refine ⟨((len &&& 0x7FFFFFFF) >>> 16) &&& 0xFFFF, ((len &&& 0x7FFFFFFF) >>> 0) &&& 0xFFFF,
      rfl, ?_, ?_, ?_, ?_, ?_⟩
    · simp only [shr0, shr16, shr31, and_mask16, and_mask31]
      omega
    · simp only [shr0, shr16, shr31, and_mask16, and_mask31]
      omega
    · intro hw
      exact absurd hw (by simp)
    · intro _
      simp only [shr0, shr16, shr31, and_mask16, and_mask31]
      omega
    · simp only [shr0, shr16, shr31, and_mask16, and_mask31]
      omega
  · have hor := or_bit31 len h
    refine ⟨((len ||| 0x80000000) >>> 16) &&& 0xFFFF, ((len ||| 0x80000000) >>> 0) &&& 0xFFFF,
      rfl, ?_, ?_, ?_, ?_, ?_⟩
    · simp only [hor, shr0, shr16, shr31, and_mask16, and_mask31]
      omega
    · simp only [hor, shr0, shr16, shr31, and_mask16, and_mask31]
      omega
    · intro _
      simp only [hor, shr0, shr16, shr31, and_mask16, and_mask31]
      omega
    · intro hw
      exact absurd hw (by simp)
    · simp only [hor, shr0, shr16, shr31, and_mask16, and_mask31]
      omega

/-- Witness for setLength_encoding at len = 16, wr = true (scenario A of the
spec: SET_LENGTH carries high = 0x8000, low = 0x0010). -/
theorem setLength_encoding_witness :
    ∃ hi lo,
      (cc1800_req_set_length (fun _ _ => ⟨0, []⟩) [] 16 true).2 =
        [USBReq.controlOut CC1800_REQ_SET_LENGTH hi lo] ∧
      hi < 65536 ∧ lo < 65536 ∧
      (True → hi * 65536 + lo = (16 ||| 0x80000000) ∧ (hi * 65536 + lo) >>> 31 = 1) ∧
      (hi * 65536 + lo) &&& 0x7FFFFFFF = 16 &&& 0x7FFFFFFF := by
  have h := setLength_encoding (fun _ _ => ⟨0, []⟩) [] 16 true (by norm_num)
  obtain ⟨hi, lo, h1, h2, h3, h4, _, h6⟩ := h
  exact ⟨hi, lo, by simpa using h1, h2, h3, fun _ => h4 rfl, h6⟩

/-- C6: for every 32-bit address, cc1800_req_set_address carries the address in
the two 16-bit metadata fields high = (addr >>> 16) &&& 0xFFFF and
low = addr &&& 0xFFFF, and high * 65536 + low recovers the address exactly. -/
theorem setAddress_roundtrip (dev : Dev) (tr : List USBReq) (addr : Nat)
    (h : addr < 2 ^ 32) :
    (cc1800_req_set_address dev tr addr).2 =
      tr ++ [USBReq.controlOut CC1800_REQ_SET_ADDRESS
        ((addr >>> 16) &&& 0xFFFF) ((addr >>> 0) &&& 0xFFFF)] ∧
    ((addr >>> 16) &&& 0xFFFF) * 65536 + ((addr >>> 0) &&& 0xFFFF) = addr := by
  refine ⟨rfl, ?_⟩
  rw [shr0, shr16, and_mask16, and_mask16]
  norm_num at h
  omega

/-- Witness for setAddress_roundtrip at addr = 0x12345678. -/
theorem setAddress_roundtrip_witness :
    (cc1800_req_set_address (fun _ _ => ⟨0, []⟩) [] 0x12345678).2 =
      [USBReq.controlOut CC1800_REQ_SET_ADDRESS
        ((0x12345678 >>> 16) &&& 0xFFFF) ((0x12345678 >>> 0) &&& 0xFFFF)] ∧
    ((0x12345678 >>> 16) &&& 0xFFFF) * 65536 + ((0x12345678 >>> 0) &&& 0xFFFF) = 0x12345678 := by
  have h := setAddress_roundtrip (fun _ _ => ⟨0, []⟩) [] 0x12345678 (by norm_num)
  simpa using h

/-- C7: evaluation of scan_ulong showing the inverted decimal branch.  The
well-formed decimal literal "123" is rejected with -1 ("bad value"), the
malformed literal "abc" is accepted as success with an unset value, and the
degenerate "0x" (EOF from sscanf) is also accepted; only genuine hex literals
like "0x1F" behave as the spec describes. -/
theorem scan_ulong_decimal_inverted :
    scan_ulong "123" = (-1, 0) ∧ scan_ulong "abc" = (0, 0) ∧
    scan_ulong "0x1F" = (0, 31) ∧ scan_ulong "0x" = (0, 0) := by
  refine ⟨?_, ?_, ?_, ?_⟩ <;> decide

/-! Shapes of the upload/download composites: the exact request sequence they
issue, and the fact that they forward the raw bulk-transfer return value. -/

theorem upload_eq_of_setup_ok (dev : Dev) (tr : List USBReq) (data : List Nat) (n addr : Nat)
    (h1 : 0 ≤ (dev tr (setAddressReq addr)).ret)
    (h2 : 0 ≤ (dev (tr ++ [setAddressReq addr]) (setLengthReq n true)).ret) :
    cc1800_upload dev tr data n addr =
      ((dev (tr ++ [setAddressReq addr, setLengthReq n true])
          (USBReq.bulkWrite 1 (data.take n))).ret,
        tr ++ [setAddressReq addr, setLengthReq n true, USBReq.bulkWrite 1 (data.take n)]) := by
  simp only [cc1800_upload, cc1800_req_set_address, cc1800_req_set_length, usb_bulk_write]
  rw [if_neg (by omega), if_neg (by omega)]
  simp

theorem download_eq_of_setup_ok (dev : Dev) (tr : List USBReq) (n addr : Nat)
    (h1 : 0 ≤ (dev tr (setAddressReq addr)).ret)
    (h2 : 0 ≤ (dev (tr ++ [setAddressReq addr]) (setLengthReq n false)).ret) :
    cc1800_download dev tr n addr =
      ((dev (tr ++ [setAddressReq addr, setLengthReq n false]) (USBReq.bulkRead 1 n)).ret,
        (dev (tr ++ [setAddressReq addr, setLengthReq n false]) (USBReq.bulkRead 1 n)).data,
        tr ++ [setAddressReq addr, setLengthReq n false, USBReq.bulkRead 1 n]) := by
  simp only [cc1800_download, cc1800_req_set_address, cc1800_req_set_length, usb_bulk_read]
  rw [if_neg (by omega), if_neg (by omega)]
  simp

theorem upload_trace_cases (dev : Dev) (tr : List USBReq) (data : List Nat) (n addr : Nat) :
    (cc1800_upload dev tr data n addr).2 = tr ++ [setAddressReq addr] ∨
    (cc1800_upload dev tr data n addr).2 = tr ++ [setAddressReq addr, setLengthReq n true] ∨
    (cc1800_upload dev tr data n addr).2 =
      tr ++ [setAddressReq addr, setLengthReq n true, USBReq.bulkWrite 1 (data.take n)] := by
  simp only [cc1800_upload, cc1800_req_set_address, cc1800_req_set_length, usb_bulk_write]
  split_ifs
  · left; rfl
  · right; left; simp
  · right; right; simp

theorem download_trace_cases (dev : Dev) (tr : List USBReq) (n addr : Nat) :
    (cc1800_download dev tr n addr).2.2 = tr ++ [setAddressReq addr] ∨
    (cc1800_download dev tr n addr).2.2 = tr ++ [setAddressReq addr, setLengthReq n false] ∨
    (cc1800_download dev tr n addr).2.2 =
      tr ++ [setAddressReq addr, setLengthReq n false, USBReq.bulkRead 1 n] := by
  simp only [cc1800_download, cc1800_req_set_address, cc1800_req_set_length, usb_bulk_read]
  split_ifs
  · left; rfl
  · right; left; simp
  · right; right; simp

theorem upload_nonneg_eq (dev : Dev) (tr : List USBReq) (data : List Nat) (n addr : Nat)
    (h : 0 ≤ (cc1800_upload dev tr data n addr).1) :
    cc1800_upload dev tr data n addr =
      ((dev (tr ++ [setAddressReq addr, setLengthReq n true])
          (USBReq.bulkWrite 1 (data.take n))).ret,
        tr ++ [setAddressReq addr, setLengthReq n true, USBReq.bulkWrite 1 (data.take n)]) := by
  by_cases c1 : (dev tr (setAddressReq addr)).ret < 0
  · exfalso
    have he : cc1800_upload dev tr data n addr =
        ((dev tr (setAddressReq addr)).ret, tr ++ [setAddressReq addr]) := by
      simp only [cc1800_upload, cc1800_req_set_address]
      rw [if_pos c1]
    rw [he] at h
    simp only at h
    omega
  · by_cases c2 : (dev (tr ++ [setAddressReq addr]) (setLengthReq n true)).ret < 0
    · exfalso
      have he : cc1800_upload dev tr data n addr =
          ((dev (tr ++ [setAddressReq addr]) (setLengthReq n true)).ret,
            (tr ++ [setAddressReq addr]) ++ [setLengthReq n true]) := by
        simp only [cc1800_upload, cc1800_req_set_address, cc1800_req_set_length]
        rw [if_neg c1, if_pos c2]
      rw [he] at h
      simp only at h
      omega
    · exact upload_eq_of_setup_ok dev tr data n addr (by omega) (by omega)

theorem download_nonneg_eq (dev : Dev) (tr : List USBReq) (n addr : Nat)
    (h : 0 ≤ (cc1800_download dev tr n addr).1) :
    cc1800_download dev tr n addr =
      ((dev (tr ++ [setAddressReq addr, setLengthReq n false]) (USBReq.bulkRead 1 n)).ret,
        (dev (tr ++ [setAddressReq addr, setLengthReq n false]) (USBReq.bulkRead 1 n)).data,
        tr ++ [setAddressReq addr, setLengthReq n false, USBReq.bulkRead 1 n]) := by
  by_cases c1 : (dev tr (setAddressReq addr)).ret < 0
  · exfalso
    have he : (cc1800_download dev tr n addr).1 = (dev tr (setAddressReq addr)).ret := by
      simp only [cc1800_download, cc1800_req_set_address]
      rw [if_pos c1]
    rw [he] at h
    omega
  · by_cases c2 : (dev (tr ++ [setAddressReq addr]) (setLengthReq n false)).ret < 0
    · exfalso
      have he : (cc1800_download dev tr n addr).1 =
          (dev (tr ++ [setAddressReq addr]) (setLengthReq n false)).ret := by
        simp only [cc1800_download, cc1800_req_set_address, cc1800_req_set_length]
        rw [if_neg c1, if_pos c2]
      rw [he] at h
      omega
    · exact download_eq_of_setup_ok dev tr n addr (by omega) (by omega)

/-- C1 counterexample: with a device whose bulk transfers move two bytes fewer
than the four requested, cc1800_upload returns 2 — a non-negative byte count
indistinguishable from success, not an error — and cc1800_download likewise.
The claim that a short transfer (0 ≤ moved < requested) is always reported as
an error by these composite operations is therefore false. -/
theorem short_transfer_not_error :
    (cc1800_upload devShort [] [1, 2, 3, 4] 4 4096).1 = 2 ∧
    0 ≤ (cc1800_upload devShort [] [1, 2, 3, 4] 4 4096).1 ∧
    (cc1800_upload devShort [] [1, 2, 3, 4] 4 4096).1 < 4 ∧
    (cc1800_download devShort [] 4 4096).1 = 2 := by
  refine ⟨?_, ?_, ?_, ?_⟩ <;> decide

/-- C1 amended: cc1800_upload and cc1800_download forward the raw
bulk-transfer byte count unchanged (so a short transfer comes back as a
non-negative partial count, not an error); the short-transfer-is-error rule
is enforced only by cc1800_execute, which maps a short upload
(0 ≤ count < requested) to the error - EIO. -/
theorem short_transfer_passthrough (dev : Dev) (tr : List USBReq) (data : List Nat)
    (n addr : Nat)
    (h1 : 0 ≤ (dev tr (setAddressReq addr)).ret)
    (h2 : 0 ≤ (dev (tr ++ [setAddressReq addr]) (setLengthReq n true)).ret)
    (h3 : 0 ≤ (dev (tr ++ [setAddressReq addr]) (setLengthReq n false)).ret) :
    (cc1800_upload dev tr data n addr).1 =
      (dev (tr ++ [setAddressReq addr, setLengthReq n true])
        (USBReq.bulkWrite 1 (data.take n))).ret ∧
    (cc1800_download dev tr n addr).1 =
      (dev (tr ++ [setAddressReq addr, setLengthReq n false]) (USBReq.bulkRead 1 n)).ret ∧
    (0 ≤ (cc1800_upload dev tr data n addr).1 →
      (cc1800_upload dev tr data n addr).1 < (n : Int) →
      (cc1800_execute dev tr data n addr).1 = - EIO) := by
  refine ⟨?_, ?_, ?_⟩
  · rw [upload_eq_of_setup_ok dev tr data n addr h1 h2]
  · rw [download_eq_of_setup_ok dev tr n addr h1 h3]
  · intro hge hlt
    simp only [cc1800_execute]
    rw [if_neg (by omega), if_pos hlt]

/-- Witness for short_transfer_passthrough: the short-transfer device makes
cc1800_execute fail with - EIO. -/
theorem short_transfer_passthrough_witness :
    (cc1800_execute devShort [] [1, 2, 3, 4] 4 4096).1 = - EIO := by
  have h := short_transfer_passthrough devShort [] [1, 2, 3, 4] 4 4096
    (by decide) (by decide) (by decide)
  exact h.2.2 (by decide) (by decide)

/-- C2: cc1800_execute issues the EXECUTE request if and only if the upload
fully succeeds (at least `n` bytes), the verification download fully succeeds,
and the readback compares byte-for-byte equal to the uploaded data; and on a
byte mismatch (with both transfers full) it fails with - EIO and EXECUTE is not
issued. -/
theorem execute_gating (dev : Dev) (tr : List USBReq) (data : List Nat) (n addr : Nat) :
    (executeReq ∈ (cc1800_execute dev tr data n addr).2.drop tr.length ↔
      ((n : Int) ≤ (cc1800_upload dev tr data n addr).1 ∧
       (n : Int) ≤ (cc1800_download dev (cc1800_upload dev tr data n addr).2 n addr).1 ∧
       memcmp data (cc1800_download dev (cc1800_upload dev tr data n addr).2 n addr).2.1 n
         = 0)) ∧
    ((n : Int) ≤ (cc1800_upload dev tr data n addr).1 →
     (n : Int) ≤ (cc1800_download dev (cc1800_upload dev tr data n addr).2 n addr).1 →
     memcmp data (cc1800_download dev (cc1800_upload dev tr data n addr).2 n addr).2.1 n ≠ 0 →
     (cc1800_execute dev tr data n addr).1 = - EIO ∧
     executeReq ∉ (cc1800_execute dev tr data n addr).2.drop tr.length) := by
  have hUnm : executeReq ∉ ((cc1800_upload dev tr data n addr).2).drop tr.length := by
    rcases upload_trace_cases dev tr data n addr with h | h | h <;>
      · rw [h, List.drop_left]
        simp [executeReq, setAddressReq, setLengthReq, CC1800_REQ_EXECUTE,
          CC1800_REQ_SET_ADDRESS, CC1800_REQ_SET_LENGTH]
  by_cases c0 : (cc1800_upload dev tr data n addr).1 < 0
  · have hE : cc1800_execute dev tr data n addr = cc1800_upload dev tr data n addr := by
      simp only [cc1800_execute]
      rw [if_pos c0]
    constructor
    · rw [hE]
      exact iff_of_false hUnm (fun hc => absurd hc.1 (by omega))
    · intro hA hB hC
      exact absurd hA (by omega)
  · by_cases c1 : (cc1800_upload dev tr data n addr).1 < (n : Int)
    · have hE : cc1800_execute dev tr data n addr =
          (- EIO, (cc1800_upload dev tr data n addr).2) := by
        simp only [cc1800_execute]
        rw [if_neg c0, if_pos c1]
      constructor
      · rw [hE]
        exact iff_of_false hUnm (fun hc => absurd hc.1 (by omega))
      · intro hA hB hC
        exact absurd hA (by omega)
    · have hU := upload_nonneg_eq dev tr data n addr (by omega)
      have hU2 : (cc1800_upload dev tr data n addr).2 =
          tr ++ [setAddressReq addr, setLengthReq n true, USBReq.bulkWrite 1 (data.take n)] := by
        rw [hU]
      have hDnm : executeReq ∉
          ((cc1800_download dev (cc1800_upload dev tr data n addr).2 n addr).2.2).drop
            tr.length := by
        rcases download_trace_cases dev (cc1800_upload dev tr data n addr).2 n addr
          with h | h | h <;>
          · rw [h, hU2, List.append_assoc, List.drop_left]
            simp [executeReq, setAddressReq, setLengthReq, CC1800_REQ_EXECUTE,
              CC1800_REQ_SET_ADDRESS, CC1800_REQ_SET_LENGTH]
      by_cases c2 : (cc1800_download dev (cc1800_upload dev tr data n addr).2 n addr).1 < 0
      · have hE : cc1800_execute dev tr data n addr =
            ((cc1800_download dev (cc1800_upload dev tr data n addr).2 n addr).1,
             (cc1800_download dev (cc1800_upload dev tr data n addr).2 n addr).2.2) := by
          simp only [cc1800_execute]
          rw [if_neg c0, if_neg c1, if_pos c2]
        constructor
        · rw [hE]
          exact iff_of_false hDnm (fun hc => absurd hc.2.1 (by omega))
        · intro hA hB hC
          exact absurd hB (by omega)
      · by_cases c3 : (cc1800_download dev (cc1800_upload dev tr data n addr).2 n addr).1
            < (n : Int)
        · have hE : cc1800_execute dev tr data n addr =
              (- EIO, (cc1800_download dev (cc1800_upload dev tr data n addr).2 n addr).2.2) := by
            simp only [cc1800_execute]
            rw [if_neg c0, if_neg c1, if_neg c2, if_pos c3]
          constructor
          · rw [hE]
            exact iff_of_false hDnm (fun hc => absurd hc.2.1 (by omega))
          · intro hA hB hC
            exact absurd hB (by omega)
        · by_cases c4 : memcmp data
              (cc1800_download dev (cc1800_upload dev tr data n addr).2 n addr).2.1 n ≠ 0
          · have hE : cc1800_execute dev tr data n addr =
                (- EIO,
                 (cc1800_download dev (cc1800_upload dev tr data n addr).2 n addr).2.2) := by
              simp only [cc1800_execute]
              rw [if_neg c0, if_neg c1, if_neg c2, if_neg c3, if_pos c4]
            constructor
            · rw [hE]
              exact iff_of_false hDnm (fun hc => absurd hc.2.2 c4)
            · intro _ _ _
              rw [hE]
              exact ⟨rfl, hDnm⟩
          · have hmc : memcmp data
                (cc1800_download dev (cc1800_upload dev tr data n addr).2 n addr).2.1 n = 0 :=
              not_not.mp c4
            have hE : cc1800_execute dev tr data n addr =
                cc1800_req_execute dev
                  (cc1800_download dev (cc1800_upload dev tr data n addr).2 n addr).2.2 := by
              simp only [cc1800_execute]
              rw [if_neg c0, if_neg c1, if_neg c2, if_neg c3, if_neg c4]
            have hD := download_nonneg_eq dev (cc1800_upload dev tr data n addr).2 n addr
              (by omega)
            have hD2 : (cc1800_download dev (cc1800_upload dev tr data n addr).2 n addr).2.2 =
                (cc1800_upload dev tr data n addr).2 ++
                  [setAddressReq addr, setLengthReq n false, USBReq.bulkRead 1 n] := by
              rw [hD]
            have hmem : executeReq ∈ (cc1800_execute dev tr data n addr).2.drop tr.length := by
              rw [hE]
              simp only [cc1800_req_execute]
              rw [hD2, hU2, List.append_assoc, List.append_assoc, List.drop_left]
              simp
            constructor
            · exact iff_of_true hmem ⟨by omega, by omega, hmc⟩
            · intro _ _ hC
              exact absurd hmc hC

/-- Witness for execute_gating: a device that transfers everything in full but
reads back zeros, so the verification of the uploaded bytes [1, 2] mismatches
and cc1800_execute aborts with - EIO without issuing EXECUTE. -/
theorem execute_gating_witness :
    (cc1800_execute devFull [] [1, 2] 2 0).1 = - EIO ∧
    executeReq ∉ (cc1800_execute devFull [] [1, 2] 2 0).2.drop 0 := by
  have h := (execute_gating devFull [] [1, 2] 2 0).2 (by decide) (by decide) (by decide)
  simpa using h

/-! The request trace of the interpreter only ever grows, and every command entry
begins with the getCpuInfo probe. -/

theorem upload_extends (dev : Dev) (tr : List USBReq) (data : List Nat) (n addr : Nat) :
    ∃ l, (cc1800_upload dev tr data n addr).2 = tr ++ l := by
  rcases upload_trace_cases dev tr data n addr with h | h | h
  exacts [⟨_, h⟩, ⟨_, h⟩, ⟨_, h⟩]

theorem download_extends (dev : Dev) (tr : List USBReq) (n addr : Nat) :
    ∃ l, (cc1800_download dev tr n addr).2.2 = tr ++ l := by
  rcases download_trace_cases dev tr n addr with h | h | h
  exacts [⟨_, h⟩, ⟨_, h⟩, ⟨_, h⟩]

theorem ext_trans {t1 t2 t3 : List USBReq} (h1 : ∃ l, t2 = t1 ++ l)
    (h2 : ∃ l, t3 = t2 ++ l) : ∃ l, t3 = t1 ++ l := by
  obtain ⟨a, ha⟩ := h1
  obtain ⟨b, hb⟩ := h2
  exact ⟨a ++ b, by rw [hb, ha, List.append_assoc]⟩

/-- The trace component of a write command outcome extends the incoming trace. -/
theorem write_cmd_extends (dev : Dev) (fs : FS) (tr2 : List USBReq) (w : Nat) (a f : String) :
    ∃ l, outTrace (write_cmd dev fs tr2 w a f) = tr2 ++ l := by
  simp only [write_cmd]
  split_ifs <;> simp only [outTrace] <;>
    first
      | exact ⟨[], (List.append_nil tr2).symm⟩
      | exact upload_extends dev tr2 (load_file fs f).2 (load_file fs f).2.length
          (scan_ulong a).2
      | exact ext_trans
          (upload_extends dev tr2 (load_file fs f).2 (load_file fs f).2.length
            (scan_ulong a).2)
          (download_extends dev
            (cc1800_upload dev tr2 (load_file fs f).2 (load_file fs f).2.length
              (scan_ulong a).2).2
            (load_file fs f).2.length (scan_ulong a).2)

/-- The trace component of a read command outcome extends the incoming trace. -/
theorem read_cmd_extends (dev : Dev) (fs : FS) (tr2 : List USBReq) (w : Nat)
    (a lng f : String) :
    ∃ l, outTrace (read_cmd dev fs tr2 w a lng f) = tr2 ++ l := by
  simp only [read_cmd]
  split_ifs <;> simp only [outTrace] <;>
    first
      | exact ⟨[], (List.append_nil tr2).symm⟩
      | exact download_extends dev tr2 (scan_ulong lng).2 (scan_ulong a).2

/-- The trace component of an exec command outcome is the incoming trace plus
the EXECUTE request. -/
theorem exec_cmd_extends (dev : Dev) (tr2 : List USBReq) (w : Nat) :
    ∃ l, outTrace (exec_cmd dev tr2 w) = tr2 ++ l := by
  simp only [exec_cmd, cc1800_req_execute]
  split_ifs <;> simp only [outTrace]
  · exact ⟨[executeReq], rfl⟩
  · exact ⟨[executeReq], rfl⟩

/-- Main structural lemma about the interpreter: the resulting trace extends
the incoming trace, the extension is empty on an empty command list, and on a
nonempty command list the extension starts with the getCpuInfo probe request. -/
theorem fiddle_trace_extend (dev : Dev) (fs : FS) :
    ∀ (k : Nat) (args : List String) (tr : List USBReq) (cpu : Bool) (w : Nat),
      args.length ≤ k →
      ∃ l, (cc1800_fiddle dev fs tr cpu w args).2.1 = tr ++ l ∧
        (args = [] → l = []) ∧
        (∀ cmd rest, args = cmd :: rest → ∃ t, l = cpuInfoReq :: t) := by
  intro k
  induction k with
  | zero =>
    intro args tr cpu w hlen
    rcases args with _ | ⟨cmd, rest⟩
    · exact ⟨[], by simp [cc1800_fiddle], fun _ => rfl, fun cmd rest h => by simp at h⟩
    · simp at hlen
  | succ k ih =>
    intro args tr cpu w hlen
    rcases args with _ | ⟨cmd, rest⟩
    · exact ⟨[], by simp [cc1800_fiddle], fun _ => rfl, fun cmd rest h => by simp at h⟩
    · simp only [List.length_cons] at hlen
      have hmain : ∃ l2, (cc1800_fiddle dev fs tr cpu w (cmd :: rest)).2.1 =
          (tr ++ [cpuInfoReq]) ++ l2 := by
        simp only [cc1800_fiddle, cc1800_req_get_cpu_info]
        by_cases hp : (dev tr cpuInfoReq).ret < 0
        · rw [if_pos hp]
          exact ⟨[], by simp⟩
        · rw [if_neg hp]
          by_cases hw : cmd = "write"
          · rw [if_pos hw]
            rcases rest with _ | ⟨a, rest1⟩
            · exact ⟨[], by simp⟩
            · rcases rest1 with _ | ⟨f, rest2⟩
              · exact ⟨[], by simp⟩
              · obtain ⟨l2, hl2⟩ := write_cmd_extends dev fs (tr ++ [cpuInfoReq]) w a f
                rcases hwc : write_cmd dev fs (tr ++ [cpuInfoReq]) w a f with r | s
                · rw [hwc] at hl2
                  simp only [outTrace] at hl2
                  refine ⟨l2, ?_⟩
                  simp only [hwc]
                  exact hl2
                · rw [hwc] at hl2
                  simp only [outTrace] at hl2
                  obtain ⟨l3, h3, _, _⟩ := ih rest2 s.1 true s.2
                    (by simp only [List.length_cons] at hlen; omega)
                  refine ⟨l2 ++ l3, ?_⟩
                  simp only [hwc]
                  rw [h3, hl2, List.append_assoc]
          · rw [if_neg hw]
            by_cases hr : cmd = "read"
            · rw [if_pos hr]
              rcases rest with _ | ⟨a, rest1⟩
              · exact ⟨[], by simp⟩
              · rcases rest1 with _ | ⟨lng, rest2⟩
                · exact ⟨[], by simp⟩
                · rcases rest2 with _ | ⟨f, rest3⟩
                  · exact ⟨[], by simp⟩
                  · obtain ⟨l2, hl2⟩ := read_cmd_extends dev fs (tr ++ [cpuInfoReq]) w a lng f
                    rcases hrc : read_cmd dev fs (tr ++ [cpuInfoReq]) w a lng f with r | s
                    · rw [hrc] at hl2
                      simp only [outTrace] at hl2
                      refine ⟨l2, ?_⟩
                      simp only [hrc]
                      exact hl2
                    · rw [hrc] at hl2
                      simp only [outTrace] at hl2
                      obtain ⟨l3, h3, _, _⟩ := ih rest3 s.1 true s.2
                        (by simp only [List.length_cons] at hlen; omega)
                      refine ⟨l2 ++ l3, ?_⟩
                      simp only [hrc]
                      rw [h3, hl2, List.append_assoc]
            · rw [if_neg hr]
              by_cases hx : cmd = "exec"
              · rw [if_pos hx]
                obtain ⟨l2, hl2⟩ := exec_cmd_extends dev (tr ++ [cpuInfoReq]) w
                rcases hxc : exec_cmd dev (tr ++ [cpuInfoReq]) w with r | s
                · rw [hxc] at hl2
                  simp only [outTrace] at hl2
                  refine ⟨l2, ?_⟩
                  simp only [hxc]
                  exact hl2
                · rw [hxc] at hl2
                  simp only [outTrace] at hl2
                  obtain ⟨l3, h3, _, _⟩ := ih rest s.1 true s.2 (by omega)
                  refine ⟨l2 ++ l3, ?_⟩
                  simp only [hxc]
                  rw [h3, hl2, List.append_assoc]
              · rw [if_neg hx]
                exact ⟨[], by simp⟩
      obtain ⟨l2, hl2⟩ := hmain
      refine ⟨cpuInfoReq :: l2, ?_, by simp, fun _ _ _ => ⟨l2, rfl⟩⟩
      rw [hl2]
      simp

/-- The trace of an exec command outcome is exactly the incoming trace plus
the EXECUTE request (whether or not the request succeeded). -/
theorem exec_cmd_trace (dev : Dev) (tr2 : List USBReq) (w : Nat) :
    outTrace (exec_cmd dev tr2 w) = tr2 ++ [executeReq] := by
  simp only [exec_cmd, cc1800_req_execute]
  split_ifs <;> simp only [outTrace]

/-- C3: on entry to each command position — whatever kind of command it is —
the interpreter issues the getCpuInfo liveness probe as the first request of that entry;
and if the probe fails, the interpreter returns the error of the probe
immediately, with no further request issued and none of the remaining
commands (including the current one) attempted. -/
theorem probe_before_dispatch (dev : Dev) (fs : FS) (tr : List USBReq) (cpu : Bool) (w : Nat)
    (cmd : String) (rest : List String) :
    (∃ l, (cc1800_fiddle dev fs tr cpu w (cmd :: rest)).2.1 = tr ++ cpuInfoReq :: l) ∧
    ((dev tr cpuInfoReq).ret < 0 →
      cc1800_fiddle dev fs tr cpu w (cmd :: rest) =
        ((dev tr cpuInfoReq).ret, tr ++ [cpuInfoReq], w)) := by
  constructor
  · obtain ⟨l, hl, _, hcons⟩ := fiddle_trace_extend dev fs (cmd :: rest).length (cmd :: rest)
      tr cpu w (le_refl _)
    obtain ⟨t, ht⟩ := hcons cmd rest rfl
    subst ht
    exact ⟨t, hl⟩
  · intro hfail
    simp only [cc1800_fiddle, cc1800_req_get_cpu_info]
    rw [if_pos hfail]

/-- Witness for probe_before_dispatch: a dead device (-ETIMEDOUT on every
request) makes the interpreter abort a write command at the probe, with the
probe as the only issued request. -/
theorem probe_before_dispatch_witness :
    cc1800_fiddle devDead fsNone [] false 0 ["write", "0x0", "f"] = (-110, [cpuInfoReq], 0) := by
  have h := (probe_before_dispatch devDead fsNone [] false 0 "write" ["0x0", "f"]).2
    (by decide)
  simpa using h

/-- C4: a write command whose probe, parse, load, upload and verification
download all succeed, but whose readback mismatches the uploaded bytes, only
increments the warning count: the command completes and the interpreter
continues with the remaining commands (so the write itself produces no
error result). -/
theorem write_mismatch_warns (dev : Dev) (fs : FS) (tr : List USBReq) (cpu : Bool) (w : Nat)
    (a f : String) (rest : List String)
    (hp : 0 ≤ (dev tr cpuInfoReq).ret)
    (hs : 0 ≤ (scan_ulong a).1)
    (hlf : 0 ≤ (load_file fs f).1)
    (hu : 0 ≤ (cc1800_upload dev (tr ++ [cpuInfoReq]) (load_file fs f).2
        (load_file fs f).2.length (scan_ulong a).2).1)
    (hd : 0 ≤ (cc1800_download dev
        (cc1800_upload dev (tr ++ [cpuInfoReq]) (load_file fs f).2
          (load_file fs f).2.length (scan_ulong a).2).2
        (load_file fs f).2.length (scan_ulong a).2).1)
    (hm : memcmp (load_file fs f).2
        (cc1800_download dev
          (cc1800_upload dev (tr ++ [cpuInfoReq]) (load_file fs f).2
            (load_file fs f).2.length (scan_ulong a).2).2
          (load_file fs f).2.length (scan_ulong a).2).2.1
        (load_file fs f).2.length ≠ 0) :
    cc1800_fiddle dev fs tr cpu w ("write" :: a :: f :: rest) =
      cc1800_fiddle dev fs
        (cc1800_download dev
          (cc1800_upload dev (tr ++ [cpuInfoReq]) (load_file fs f).2
            (load_file fs f).2.length (scan_ulong a).2).2
          (load_file fs f).2.length (scan_ulong a).2).2.2
        true (w + 1) rest := by
  have hwc : write_cmd dev fs (tr ++ [cpuInfoReq]) w a f =
      Sum.inr
        ((cc1800_download dev
          (cc1800_upload dev (tr ++ [cpuInfoReq]) (load_file fs f).2
            (load_file fs f).2.length (scan_ulong a).2).2
          (load_file fs f).2.length (scan_ulong a).2).2.2, w + 1) := by
    simp only [write_cmd]
    rw [if_neg (by omega), if_neg (by omega), if_neg (by omega), if_neg (by omega),
      if_pos hm]
  simp only [cc1800_fiddle, cc1800_req_get_cpu_info]
  rw [if_neg (by omega), if_pos trivial]
  simp only [hwc]

/-- Witness for write_mismatch_warns: the full-transfer zero-reading device
against file bytes [1, 2, 3] mismatches; the run still finishes with result 0
and exactly one warning. -/
theorem write_mismatch_warns_witness :
    (cc1800_fiddle devFull fsSample [] false 0 ["write", "0x10", "f"]).1 = 0 ∧
    (cc1800_fiddle devFull fsSample [] false 0 ["write", "0x10", "f"]).2.2 = 1 := by
  have h := write_mismatch_warns devFull fsSample [] false 0 "0x10" "f" []
    (by decide) (by decide) (by decide) (by decide) (by decide) (by decide)
  rw [h]
  constructor <;> decide

/-- C8 counterexample: an unknown command name does abort with -1, but only
after the liveness probe has already been issued for that entry: the request
trace of the aborted run is [cpuInfoReq], not empty, so device interaction did
happen for that entry before the abort. -/
theorem unknown_command_probe_first :
    cc1800_fiddle devFull fsNone [] false 0 ["bogus"] = (-1, [cpuInfoReq], 0) ∧
    (cc1800_fiddle devFull fsNone [] false 0 ["bogus"]).2.1 ≠ [] := by
  constructor <;> decide

/-- C8 amended: an unknown command name aborts the sequence with the hard
error -1 upon reaching that entry, before any command-specific device
interaction; the only request issued for that entry is the getCpuInfo
liveness probe (which the interpreter performs for every entry), and none of
the remaining commands is attempted. -/
theorem unknown_command_aborts (dev : Dev) (fs : FS) (tr : List USBReq) (cpu : Bool) (w : Nat)
    (cmd : String) (rest : List String)
    (h1 : cmd ≠ "write") (h2 : cmd ≠ "read") (h3 : cmd ≠ "exec")
    (hp : 0 ≤ (dev tr cpuInfoReq).ret) :
    cc1800_fiddle dev fs tr cpu w (cmd :: rest) = (-1, tr ++ [cpuInfoReq], w) := by
  simp only [cc1800_fiddle, cc1800_req_get_cpu_info]
  rw [if_neg (by omega), if_neg h1, if_neg h2, if_neg h3]

/-- Witness for unknown_command_aborts: "bogus" aborts with -1 before the
queued exec command, leaving only the probe in the trace. -/
theorem unknown_command_aborts_witness :
    cc1800_fiddle devFull fsSample [] false 0 ["bogus", "exec"] = (-1, [cpuInfoReq], 0) := by
  have h := unknown_command_aborts devFull fsSample [] false 0 "bogus" ["exec"]
    (by decide) (by decide) (by decide) (by decide)
  simpa using h

/-- C9: an exec command issues the EXECUTE request unconditionally: whenever
the interpreter reaches an exec entry (with any prior trace `tr`, including
the empty one, i.e. exec as the very first command) and the probe succeeds,
the next request after the probe is EXECUTE — there is no client-side check
that any earlier command established an address on the device. -/
theorem exec_unconditional (dev : Dev) (fs : FS) (tr : List USBReq) (cpu : Bool) (w : Nat)
    (rest : List String)
    (hp : 0 ≤ (dev tr cpuInfoReq).ret) :
    ∃ l, (cc1800_fiddle dev fs tr cpu w ("exec" :: rest)).2.1 =
      tr ++ cpuInfoReq :: executeReq :: l := by
  simp only [cc1800_fiddle, cc1800_req_get_cpu_info]
  rw [if_neg (by omega), if_neg (by decide), if_neg (by decide), if_pos trivial]
  have ht := exec_cmd_trace dev (tr ++ [cpuInfoReq]) w
  rcases hxc : exec_cmd dev (tr ++ [cpuInfoReq]) w with r | s
  · rw [hxc] at ht
    simp only [outTrace] at ht
    refine ⟨[], ?_⟩
    simp only [hxc]
    rw [ht]
    simp
  · rw [hxc] at ht
    simp only [outTrace] at ht
    obtain ⟨l3, h3, _, _⟩ := fiddle_trace_extend dev fs rest.length rest s.1 true s.2
      (le_refl _)
    refine ⟨l3, ?_⟩
    simp only [hxc]
    rw [h3, ht]
    simp

/-- Witness for exec_unconditional: exec as the very first command still sends
EXECUTE right after the probe. -/
theorem exec_unconditional_witness :
    ∃ l, (cc1800_fiddle devFull fsSample [] false 0 ["exec"]).2.1 =
      cpuInfoReq :: executeReq :: l := by
  have h := exec_unconditional devFull fsSample [] false 0 [] (by decide)
  simpa using h

/-- Under a device that never reports an error, an upload returns the bulk
result, which is non-negative. -/
theorem upload_pos_of_devOk (dev : Dev) (tr : List USBReq) (data : List Nat) (n addr : Nat)
    (hdev : ∀ t r, 0 ≤ (dev t r).ret) :
    0 ≤ (cc1800_upload dev tr data n addr).1 := by
  simp only [cc1800_upload, cc1800_req_set_address, cc1800_req_set_length, usb_bulk_write]
  split_ifs <;> exact hdev _ _

/-- Same as upload_pos_of_devOk for downloads. -/
theorem download_pos_of_devOk (dev : Dev) (tr : List USBReq) (n addr : Nat)
    (hdev : ∀ t r, 0 ≤ (dev t r).ret) :
    0 ≤ (cc1800_download dev tr n addr).1 := by
  simp only [cc1800_download, cc1800_req_set_address, cc1800_req_set_length, usb_bulk_read]
  split_ifs <;> exact hdev _ _

/-- Interpreter totality under full success: if the device never reports an
error, every file loads and every save succeeds, and the argument list is
grammatically well formed (argsOk), the interpreter returns 0 — regardless of
any data mismatches, which only bump the warning counter. -/
theorem fiddle_ok (dev : Dev) (fs : FS)
    (hdev : ∀ t r, 0 ≤ (dev t r).ret)
    (hload : ∀ f, (fs.load f).isSome = true)
    (hsave : ∀ f d, fs.save f d = true) :
    ∀ (k : Nat) (args : List String) (tr : List USBReq) (cpu : Bool) (w : Nat),
      args.length ≤ k → argsOk args = true →
      (cc1800_fiddle dev fs tr cpu w args).1 = 0 := by
  intro k
  induction k with
  | zero =>
    intro args tr cpu w hlen hok
    rcases args with _ | ⟨cmd, rest⟩
    · rfl
    · simp at hlen
  | succ k ih =>
    intro args tr cpu w hlen hok
    rcases args with _ | ⟨cmd, rest⟩
    · rfl
    · by_cases hw : cmd = "write"
      · subst hw
        rcases rest with _ | ⟨a, rest1⟩
        · rw [show argsOk ["write"] = false from rfl] at hok
          exact absurd hok (by simp)
        · rcases rest1 with _ | ⟨f, rest2⟩
          · rw [show argsOk ["write", a] = false from rfl] at hok
            exact absurd hok (by simp)
          · have hok2 : (scan_ulong a).1 = 0 ∧ argsOk rest2 = true := by
              rw [argsOk.eq_2] at hok
              simpa [Bool.and_eq_true, decide_eq_true_eq] using hok
            obtain ⟨hsa, hrest⟩ := hok2
            have hlf : (load_file fs f).1 = 0 := by
              have hsome := hload f
              simp only [load_file]
              rcases hfl : fs.load f with _ | d
              · rw [hfl] at hsome
                simp at hsome
              · rfl
            have hup := upload_pos_of_devOk dev (tr ++ [cpuInfoReq]) (load_file fs f).2
              (load_file fs f).2.length (scan_ulong a).2 hdev
            have hdn := download_pos_of_devOk dev
              (cc1800_upload dev (tr ++ [cpuInfoReq]) (load_file fs f).2
                (load_file fs f).2.length (scan_ulong a).2).2
              (load_file fs f).2.length (scan_ulong a).2 hdev
            have hwc : ∃ s, write_cmd dev fs (tr ++ [cpuInfoReq]) w a f = Sum.inr s := by
              simp only [write_cmd]
              rw [if_neg (by omega), if_neg (by omega), if_neg (by omega),
                if_neg (by omega)]
              exact ⟨_, rfl⟩
            obtain ⟨s, hs⟩ := hwc
            simp only [cc1800_fiddle, cc1800_req_get_cpu_info]
            rw [if_neg (not_lt.mpr (hdev tr cpuInfoReq)), if_pos trivial]
            simp only [hs]
            exact ih rest2 s.1 true s.2
              (by simp only [List.length_cons] at hlen; omega) hrest
      · by_cases hr : cmd = "read"
        · subst hr
          rcases rest with _ | ⟨a, rest1⟩
          · rw [show argsOk ["read"] = false from rfl] at hok
            exact absurd hok (by simp)
          · rcases rest1 with _ | ⟨lng, rest2⟩
            · rw [show argsOk ["read", a] = false from rfl] at hok
              exact absurd hok (by simp)
            · rcases rest2 with _ | ⟨f, rest3⟩
              · rw [show argsOk ["read", a, lng] = false from rfl] at hok
                exact absurd hok (by simp)
              · have hok2 : (scan_ulong a).1 = 0 ∧ (scan_ulong lng).1 = 0 ∧
                    argsOk rest3 = true := by
                  rw [argsOk.eq_3] at hok
                  simp only [Bool.and_eq_true, decide_eq_true_eq] at hok
                  exact ⟨hok.1.1, hok.1.2, hok.2⟩
                obtain ⟨hsa, hsl, hrest⟩ := hok2
                have hdn := download_pos_of_devOk dev (tr ++ [cpuInfoReq])
                  (scan_ulong lng).2 (scan_ulong a).2 hdev
                have hrc : ∃ s, read_cmd dev fs (tr ++ [cpuInfoReq]) w a lng f
                    = Sum.inr s := by
                  simp only [read_cmd, save_file]
                  rw [if_neg (by omega), if_neg (by omega), if_neg (by omega),
                    if_pos (hsave f _), if_neg (by norm_num)]
                  exact ⟨_, rfl⟩
                obtain ⟨s, hs⟩ := hrc
                simp only [cc1800_fiddle, cc1800_req_get_cpu_info]
                rw [if_neg (not_lt.mpr (hdev tr cpuInfoReq)), if_neg (by decide),
                  if_pos trivial]
                simp only [hs]
                exact ih rest3 s.1 true s.2
                  (by simp only [List.length_cons] at hlen; omega) hrest
        · by_cases hx : cmd = "exec"
          · subst hx
            have hrest : argsOk rest = true := by
              rw [argsOk.eq_4] at hok
              exact hok
            have hxc : ∃ s, exec_cmd dev (tr ++ [cpuInfoReq]) w = Sum.inr s := by
              simp only [exec_cmd, cc1800_req_execute]
              rw [if_neg (not_lt.mpr (hdev _ _))]
              exact ⟨_, rfl⟩
            obtain ⟨s, hs⟩ := hxc
            simp only [cc1800_fiddle, cc1800_req_get_cpu_info]
            rw [if_neg (not_lt.mpr (hdev tr cpuInfoReq)), if_neg (by decide),
              if_neg (by decide), if_pos trivial]
            simp only [hs]
            exact ih rest s.1 true s.2 (by simp only [List.length_cons] at hlen; omega)
              hrest
          · exfalso
            have hfalse : argsOk (cmd :: rest) = false := by
              apply argsOk.eq_5
              · intro h
                simp at h
              · intro a f rest2 h
                injection h with h1 _
                exact hw h1
              · intro a lng f rest3 h
                injection h with h1 _
                exact hr h1
              · intro rest1 h
                injection h with h1 _
                exact hx h1
            rw [hfalse] at hok
            exact absurd hok (by simp)

/-- C10: if every probe, transfer, parse and file operation succeeds (the only
permitted anomaly being verification byte mismatches, which the hypotheses do
not exclude since the device data is unconstrained), the interpreter returns 0
and main — with the device found, opened, configured and claimed — returns 0,
so the process exits with status 0: verification warnings never change the
exit status. -/
theorem verify_warning_exit_zero (dev : Dev) (fs : FS) (args : List String)
    (cfgRes claimRes : Int)
    (hdev : ∀ t r, 0 ≤ (dev t r).ret)
    (hload : ∀ f, (fs.load f).isSome = true)
    (hsave : ∀ f d, fs.save f d = true)
    (hargs : argsOk args = true)
    (hne : args ≠ [])
    (hcfg : 0 ≤ cfgRes) (hclaim : 0 ≤ claimRes) :
    (cc1800_fiddle dev fs [] false 0 args).1 = 0 ∧
    main true true cfgRes claimRes dev fs args = 0 := by
  have h0 := fiddle_ok dev fs hdev hload hsave args.length args [] false 0 (le_refl _) hargs
  refine ⟨h0, ?_⟩
  have hm : main true true cfgRes claimRes dev fs args =
      (cc1800_fiddle dev fs [] false 0 args).1 := by
    simp only [main]
    rw [if_neg hne, if_neg (by decide), if_neg (by decide), if_neg (by omega),
      if_neg (by omega)]
  rw [hm]
  exact h0

/-- Witness for verify_warning_exit_zero: a run of write (which mismatches
against the zero-reading device and prints a warning) followed by exec, with
all transfers succeeding, exits with 0. -/
theorem verify_warning_exit_zero_witness :
    (cc1800_fiddle devFull fsSample [] false 0 ["write", "0x10", "f", "exec"]).1 = 0 ∧
    main true true 0 0 devFull fsSample ["write", "0x10", "f", "exec"] = 0 := by
  have h := verify_warning_exit_zero devFull fsSample ["write", "0x10", "f", "exec"] 0 0
    (fun t r => by cases r <;> simp only [devFull] <;> omega)
    (fun f => rfl) (fun f d => rfl) (by decide) (by decide) (by decide) (by decide)
  exact h

end CC1800
